import Mathlib

/-!
Shallow embedding of the core data-normalization and indicator layer of
`stock_app.py` (a Streamlit stock dashboard), together with theorems
settling the frozen claims about it.

Machine floats are modelled by `ℚ`.  Where the Python code relies on
IEEE-754 special values (pandas `NaN` for missing rolling-window output,
`inf` from division by zero) the embedding makes the case structure
explicit with `Option`: `none` stands for a NaN/undefined position and
the `inf` arithmetic of `x / 0` for `x > 0` is folded into the explicit
value it yields in the final formula.
-/

/-! ## Substring matching (models `pandas.Series.str.contains` with a
case-insensitive alternation pattern) -/

/-- `startsWithChars pat s` is true iff `pat` is an initial segment of `s`. -/
def startsWithChars : List Char → List Char → Bool
  | [], _ => true
  | _ :: _, [] => false
  | p :: ps, c :: cs => (p = c) && startsWithChars ps cs

/-- `containsChars pat s` is true iff `pat` occurs contiguously inside `s`. -/
def containsChars (pat : List Char) : List Char → Bool
  | [] => startsWithChars pat []
  | c :: cs => startsWithChars pat (c :: cs) || containsChars pat cs

/-- Character-wise lower-casing of a string's character list. -/
def lowerChars (s : List Char) : List Char := s.map Char.toLower

/-- Case-insensitive substring test: does `label` contain `pat`
(given in lower case), ignoring the case of `label`?  Models
`label.str.contains(pat, case=False)` for a literal pattern. -/
def labelHas (label pat : String) : Bool :=
  containsChars pat.toList (lowerChars label.toList)

/-- One grade label matches the buy bucket: the regex alternation
`'Buy|Outperform|Overweight'` with `case=False` from `get_analyst_rating`. -/
def matchesBuy (s : String) : Bool :=
  labelHas s "buy" || labelHas s "outperform" || labelHas s "overweight"

/-- One grade label matches the hold bucket: `'Hold|Neutral'`, `case=False`. -/
def matchesHold (s : String) : Bool :=
  labelHas s "hold" || labelHas s "neutral"

/-- One grade label matches the sell bucket:
`'Sell|Underperform|Underweight'`, `case=False`. -/
def matchesSell (s : String) : Bool :=
  labelHas s "sell" || labelHas s "underperform" || labelHas s "underweight"

/-! ## Canonical price series -/

/-- One OHLCV bar of the canonical price series.  The pandas index value
(a trading date) is modelled as an integer day number, which preserves
the order structure used by sorting and the range filter; `open` is a
Lean keyword, so that column is named `openPrice`. -/
structure Bar where
  date : Int
  openPrice : ℚ
  high : ℚ
  low : ℚ
  close : ℚ
  volume : ℚ
deriving DecidableEq

/-- The `close` column of a price table. -/
def closesOf (s : List Bar) : List ℚ := s.map Bar.close

/-- `lastN n l` is the suffix of `l` of length `min n l.length`: pandas
`DataFrame.tail(n)` / `Series.tail(n)`. -/
def lastN {α : Type} (n : ℕ) (l : List α) : List α := l.drop (l.length - n)

/-! ## Indicator engine -/

/-- `calculate_ma` from the source:
`hist_df['close'].rolling(window=days).mean().iloc[-1]`.
`Except.error` models an uncaught exception (pandas refuses a zero
window, and `.iloc[-1]` on an empty frame raises `IndexError`);
`Except.ok none` models a NaN tail value (fewer than `days` rows);
otherwise the value is the arithmetic mean of the last `days` closes. -/
def calculate_ma (hist_df : List Bar) (days : ℕ) : Except Unit (Option ℚ) :=
  let closes := closesOf hist_df
  if days = 0 then .error ()
  else if closes.length < days then
    if closes.isEmpty then .error () else .ok none
  else .ok (some ((lastN days closes).sum / (days : ℚ)))

/-- The RSI lookback period (`period=14` in `get_rsi`). -/
def rsiPeriod : ℕ := 14

/-- The gain series of `get_rsi`: `(delta.where(delta > 0, 0))` at
position `j`, where `delta = series.diff()`.  At position `0` the diff
is NaN, the condition `NaN > 0` is false, and `where` substitutes `0`. -/
def deltaGain (c : List ℚ) (j : ℕ) : ℚ :=
  if j = 0 then 0 else max (c.getD j 0 - c.getD (j - 1) 0) 0

/-- The loss series of `get_rsi`: `(-delta.where(delta < 0, 0))` at
position `j`; again position `0` becomes `-0 = 0`. -/
def deltaLoss (c : List ℚ) (j : ℕ) : ℚ :=
  if j = 0 then 0 else max (c.getD (j - 1) 0 - c.getD j 0) 0

/-- `gain.rolling(window=14).mean()` at position `i` (defined for
`i ≥ 13`; the guard lives in `rsiAt`). -/
def meanGain (c : List ℚ) (i : ℕ) : ℚ :=
  (((List.range rsiPeriod).map fun k => deltaGain c (i - (rsiPeriod - 1) + k)).sum) / (rsiPeriod : ℚ)

/-- `loss.rolling(window=14).mean()` at position `i`. -/
def meanLoss (c : List ℚ) (i : ℕ) : ℚ :=
  (((List.range rsiPeriod).map fun k => deltaLoss c (i - (rsiPeriod - 1) + k)).sum) / (rsiPeriod : ℚ)

/-- The value of the series returned by `get_rsi` at position `i`.
`none` models a NaN output: either the rolling window is not yet full
(`i < 13`), the position does not exist, or `rs = 0/0 = NaN` (flat
window).  When `loss = 0 < gain`, IEEE division gives `rs = inf` and
`100 - 100/(1 + inf) = 100`, which the embedding writes out explicitly;
in every other case the float formula `100 - 100/(1 + gain/loss)` is
transcribed verbatim over `ℚ`. -/
def rsiAt (c : List ℚ) (i : ℕ) : Option ℚ :=
  if i < rsiPeriod - 1 ∨ c.length ≤ i then none
  else
    let g := meanGain c i
    let l := meanLoss c i
    if l = 0 then (if g = 0 then none else some 100)
    else some (100 - 100 / (1 + g / l))

/-- `get_rsi` from the source, as the full output series (one entry per
input position, `none` at NaN positions). -/
def get_rsi (c : List ℚ) : List (Option ℚ) :=
  (List.range c.length).map (rsiAt c)

/-- The scalar `low_200` metric: `hist_data['low'].tail(200).min()`.
pandas `min()` of an empty column is NaN, hence the `Option`. -/
def low_200 (hist_data : List Bar) : Option ℚ :=
  ((lastN 200 hist_data).map Bar.low).min?

/-! ## Range filter for the chart view -/

/-- `hist_data.index.max()`: the maximum of the table's date column
(the value 0 for an empty table stands for pandas' NaT and is never
relied upon). -/
def maxDate (s : List Bar) : Int :=
  ((s.map Bar.date).max?).getD 0

/-- The chart range filter:
`hist_data[hist_data.index >= hist_data.index.max() - pd.Timedelta(days=days_back)]`. -/
def filterRange (days_back : Int) (s : List Bar) : List Bar :=
  s.filter fun b => decide (maxDate s - days_back ≤ b.date)

/-- `filtered_rsi = get_rsi(filtered_data['close'])`: the RSI panel of
the filtered view is recomputed from the date-filtered slice. -/
def filtered_rsi (days_back : Int) (s : List Bar) : List (Option ℚ) :=
  get_rsi (closesOf (filterRange days_back s))

/-- A daily price series of `n` bars whose dates are the consecutive
days `d0, d0+1, …, d0+n-1`; the OHLCV payload of bar `i` is arbitrary
(given by `g i`). -/
def dailySeries (d0 : Int) (g : ℕ → Bar) (n : ℕ) : List Bar :=
  (List.range n).map fun i => { g i with date := d0 + i }

/-! ## Analyst sentiment aggregator -/

/-- The summary dictionary returned by `get_analyst_rating`. -/
structure RatingSummary where
  overall : String
  buy : ℕ
  hold : ℕ
  sell : ℕ
  buy_pct : ℚ
  hold_pct : ℚ
  sell_pct : ℚ
deriving DecidableEq

/-- `buy_count` over the 10 most recent events: rows whose `To Grade`
matches the buy alternation. -/
def buyCount (recent : List String) : ℕ := (recent.filter matchesBuy).length

/-- `hold_count` over the 10 most recent events. -/
def holdCount (recent : List String) : ℕ := (recent.filter matchesHold).length

/-- `sell_count` over the 10 most recent events. -/
def sellCount (recent : List String) : ℕ := (recent.filter matchesSell).length

/-- `get_analyst_rating` from the source.  The recommendation table is
modelled by its `To Grade` column: `none` is a `None` table, `some []`
an empty DataFrame.  The body transcribes the Python: take the last 10
rows, count substring matches per bucket, return `None` when the bucket
total is zero, else percentages and the ordered threshold chain. -/
def get_analyst_rating (recommendations : Option (List String)) : Option RatingSummary :=
  match recommendations with
  | none => none
  | some grades =>
    if grades.isEmpty then none
    else
      let recent := lastN 10 grades
      let buy_count := buyCount recent
      let hold_count := holdCount recent
      let sell_count := sellCount recent
      let total := buy_count + hold_count + sell_count
      if total = 0 then none
      else
        let buy_pct := ((buy_count : ℚ) / (total : ℚ)) * 100
        let hold_pct := ((hold_count : ℚ) / (total : ℚ)) * 100
        let sell_pct := ((sell_count : ℚ) / (total : ℚ)) * 100
        some
          { overall :=
              if 60 ≤ buy_pct then "Strong Buy"
              else if 40 ≤ buy_pct then "Buy"
              else if 50 ≤ hold_pct then "Hold"
              else if 40 ≤ sell_pct then "Sell"
              else "Hold"
            buy := buy_count, hold := hold_count, sell := sell_count
            buy_pct := buy_pct, hold_pct := hold_pct, sell_pct := sell_pct }

/-- The spec's ordered decision table (§4.3), restated on the raw bucket
counts with integer-scaled comparisons (`buy_pct ≥ 60` becomes
`60 * total ≤ 100 * buy`, and so on); used to compare the code's
rational-percentage thresholds against the spec's words. -/
def specOverall (b h s : ℕ) : String :=
  let t := b + h + s
  if 60 * t ≤ 100 * b then "Strong Buy"
  else if 40 * t ≤ 100 * b then "Buy"
  else if 50 * t ≤ 100 * h then "Hold"
  else if 40 * t ≤ 100 * s then "Sell"
  else "Hold"

/-! ## Fallback provider normalization (`get_alpha_vantage`) -/

/-- One column of the transposed `"Time Series (Daily)"` JSON object:
the five field values keyed by one date.  A field is `none` when its
string does not parse as a float (so `astype(float)` would raise). -/
structure RawBar where
  rawOpen : Option ℚ
  rawHigh : Option ℚ
  rawLow : Option ℚ
  rawClose : Option ℚ
  rawVolume : Option ℚ
deriving DecidableEq

/-- All five fields of the row parse as floats. -/
def RawBar.parses (r : RawBar) : Bool :=
  r.rawOpen.isSome && r.rawHigh.isSome && r.rawLow.isSome &&
    r.rawClose.isSome && r.rawVolume.isSome

/-- The canonical bar built from a parsed raw row keyed by date `d`. -/
def RawBar.toBar (r : RawBar) (d : Int) : Bar :=
  { date := d, openPrice := r.rawOpen.getD 0, high := r.rawHigh.getD 0,
    low := r.rawLow.getD 0, close := r.rawClose.getD 0, volume := r.rawVolume.getD 0 }

/-- The boolean date order used to model `DataFrame.sort_index()`. -/
def dateLe (a b : Bar) : Bool := a.date ≤ b.date

/-- `get_alpha_vantage` from the source, after the HTTP layer.  The
payload models the JSON: `none` when the request failed, the API key is
absent, or the `"Time Series (Daily)"` key is missing; otherwise the
list of (date, raw row) pairs of the JSON object (object keys are
unique, so callers supply distinct dates).  An empty object makes the
five-name column assignment raise (caught: `None`); an unparseable
field makes `astype(float)` raise (caught: `None`); otherwise the rows
are converted, sorted ascending by date (`sort_index`), and truncated
to the most recent 250 bars (`tail(250)`). -/
def get_alpha_vantage (payload : Option (List (Int × RawBar))) : Option (List Bar) :=
  match payload with
  | none => none
  | some rows =>
    if rows.isEmpty then none
    else if rows.any (fun p => ! p.2.parses) then none
    else some (lastN 250 ((rows.map fun p => p.2.toBar p.1).mergeSort dateLe))

/-! ## Fetch-button session-state transition -/

/-- The auxiliary bundle returned next to the price history; only the
recommendation table matters to the claims (the `info` /
`quarterly_income` entries are display-only pass-through). -/
structure AuxData where
  recommendations : Option (List String)
deriving DecidableEq

/-- The session state touched by the fetch handler. -/
structure SessionState where
  hist_data : Option (List Bar)
  data : Option AuxData
deriving DecidableEq

/-- `hist_data is None or hist_data.empty`, negated: a usable history. -/
def usableHist (h : Option (List Bar)) : Bool :=
  match h with
  | none => false
  | some l => ! l.isEmpty

/-- The `fetch_btn` handler (source lines 210–227) as a state
transition: try Yahoo, fall back to Alpha Vantage (with an empty
auxiliary bundle), then either store the fetched data or set both
session fields to `None` on total failure. -/
def fetch_handler (prev : SessionState) (yahooHist : Option (List Bar))
    (yahooAux : Option AuxData) (alphaHist : Option (List Bar)) : SessionState :=
  let attempt :=
    if usableHist yahooHist then (yahooHist, yahooAux)
    else (alphaHist, some { recommendations := some [] })
  if usableHist attempt.1 then { hist_data := attempt.1, data := attempt.2 }
  else { hist_data := none, data := none }

/-- A sample bar used by concrete instances. -/
def sampleBar : Bar :=
  { date := 0, openPrice := 1, high := 2, low := 1, close := 2, volume := 10 }

/-- A flat 15-day close series (every close `5`). -/
def flat15 : List ℚ := List.replicate 15 5

/-- A strictly increasing 15-day close series. -/
def up15 : List ℚ := (List.range 15).map fun n => (n : ℚ)

/-- An alternating 15-day close series `1, 2, 1, 2, …`. -/
def zig15 : List ℚ := (List.range 15).map fun n => if n % 2 = 0 then (1 : ℚ) else 2

/-- The worked aggregator example from the spec (§8). -/
def exampleLabels : List String :=
  ["Buy", "Buy", "Buy", "Buy", "Buy", "Buy", "Hold", "Hold", "Sell", "Junk"]

/-! ## Concrete fixtures used by witnesses and counterexamples -/

/-- A three-bar history with closes `1, 2, 4`. -/
def bars3 : List Bar :=
  [ { sampleBar with date := 0, close := 1 },
    { sampleBar with date := 1, close := 2 },
    { sampleBar with date := 2, close := 4 } ]

/-- A fifty-bar history whose `low` column decreases from 50 to 1. -/
def bars50 : List Bar := (List.range 50).map fun i =>
  { sampleBar with date := i, low := (50 : ℚ) - (i : ℚ) }

/-- A session state holding a previously fetched series. -/
def prevState : SessionState :=
  { hist_data := some [sampleBar], data := some { recommendations := some ["Buy"] } }

/-- A fallback-provider row with all five fields parseable. -/
def rawOk : RawBar :=
  { rawOpen := some 1, rawHigh := some 2, rawLow := some 1,
    rawClose := some 2, rawVolume := some 3 }

/-- A fallback-provider row whose close field does not parse. -/
def rawBad : RawBar :=
  { rawOpen := some 1, rawHigh := some 2, rawLow := some 1,
    rawClose := none, rawVolume := some 3 }

/-- Three parseable fallback rows with out-of-order distinct dates. -/
def rows3 : List (Int × RawBar) := [(5, rawOk), (3, rawOk), (9, rawOk)]

/-- Recommendation labels matching none of the three buckets. -/
def unratedLabels : List String := ["Coverage Initiated", "Mixed"]

deriving instance DecidableEq for Except

instance : Std.Antisymm ((· : ℚ) ≤ ·) := ⟨@fun _ _ h h' => le_antisymm h h'⟩

/-! ## Generic helper lemmas -/

theorem rsiPeriod_eq : rsiPeriod = 14 := rfl

theorem getD_drop {α : Type} (c : List α) (k j : ℕ) (d : α) :
    (c.drop k).getD j d = c.getD (k + j) d := by
  simp [List.getD_eq_getElem?_getD, List.getElem?_drop]

theorem deltaGain_drop (c : List ℚ) (k j : ℕ) (hj : j ≠ 0) :
    deltaGain (c.drop k) j = deltaGain c (k + j) := by
  unfold deltaGain
  rw [if_neg hj, if_neg (by omega : ¬ k + j = 0), getD_drop, getD_drop]
  have : k + (j - 1) = k + j - 1 := by omega
  rw [this]

theorem deltaLoss_drop (c : List ℚ) (k j : ℕ) (hj : j ≠ 0) :
    deltaLoss (c.drop k) j = deltaLoss c (k + j) := by
  unfold deltaLoss
  rw [if_neg hj, if_neg (by omega : ¬ k + j = 0), getD_drop, getD_drop]
  have : k + (j - 1) = k + j - 1 := by omega
  rw [this]

theorem meanGain_drop (c : List ℚ) (k i : ℕ) (hi : rsiPeriod ≤ i) :
    meanGain (c.drop k) i = meanGain c (k + i) := by
  have hp := rsiPeriod_eq
  unfold meanGain
  congr 1
  congr 1
  apply List.map_congr_left
  intro a ha
  rw [List.mem_range] at ha
  rw [deltaGain_drop c k _ (by omega)]
  congr 1
  omega

theorem meanLoss_drop (c : List ℚ) (k i : ℕ) (hi : rsiPeriod ≤ i) :
    meanLoss (c.drop k) i = meanLoss c (k + i) := by
  have hp := rsiPeriod_eq
  unfold meanLoss
  congr 1
  congr 1
  apply List.map_congr_left
  intro a ha
  rw [List.mem_range] at ha
  rw [deltaLoss_drop c k _ (by omega)]
  congr 1
  omega

theorem rsiAt_drop (c : List ℚ) (k i : ℕ) (hi : rsiPeriod ≤ i) (hlen : k + i < c.length) :
    rsiAt (c.drop k) i = rsiAt c (k + i) := by
  have hp := rsiPeriod_eq
  have h1 : ¬ (i < rsiPeriod - 1 ∨ (c.drop k).length ≤ i) := by
    rw [List.length_drop]; omega
  have h2 : ¬ (k + i < rsiPeriod - 1 ∨ c.length ≤ k + i) := by omega
  unfold rsiAt
  rw [if_neg h1, if_neg h2, meanGain_drop c k i hi, meanLoss_drop c k i hi]

theorem get_rsi_getD (c : List ℚ) (i : ℕ) (h : i < c.length) :
    (get_rsi c).getD i none = rsiAt c i := by
  unfold get_rsi
  rw [List.getD_eq_getElem?_getD, List.getElem?_map, List.getElem?_range h]
  rfl

theorem getD_of_length_le {α : Type} (l : List α) (i : ℕ) (d : α) (h : l.length ≤ i) :
    l.getD i d = d := by
  rw [List.getD_eq_getElem?_getD, List.getElem?_eq_none h]
  rfl

theorem deltaGain_nonneg (c : List ℚ) (j : ℕ) : 0 ≤ deltaGain c j := by
  unfold deltaGain
  split
  · exact le_refl 0
  · exact le_max_right _ 0

theorem deltaLoss_nonneg (c : List ℚ) (j : ℕ) : 0 ≤ deltaLoss c j := by
  unfold deltaLoss
  split
  · exact le_refl 0
  · exact le_max_right _ 0

theorem meanGain_nonneg (c : List ℚ) (i : ℕ) : 0 ≤ meanGain c i := by
  unfold meanGain
  apply div_nonneg _ (by norm_num)
  apply List.sum_nonneg
  intro x hx
  rw [List.mem_map] at hx
  obtain ⟨a, -, rfl⟩ := hx
  exact deltaGain_nonneg _ _

theorem meanLoss_nonneg (c : List ℚ) (i : ℕ) : 0 ≤ meanLoss c i := by
  unfold meanLoss
  apply div_nonneg _ (by norm_num)
  apply List.sum_nonneg
  intro x hx
  rw [List.mem_map] at hx
  obtain ⟨a, -, rfl⟩ := hx
  exact deltaLoss_nonneg _ _

/-! ## C1 -/

unseal Rat.add Rat.mul Rat.inv Rat.sub in
/-- C1 counterexample: on a flat 15-day series the 14-period mean loss
at position 14 is exactly zero, yet `get_rsi` does not produce 100
there: the mean gain is also zero, `rs = 0/0` is NaN, and the NaN
propagates (`none`), so the claimed explicit `RSI = 100` rule does not
hold at this input. -/
theorem C1_counterexample :
    meanLoss flat15 14 = 0 ∧ (get_rsi flat15).getD 14 none ≠ some 100 := by
  decide

/-- C1 (amended): at a position where the rolling mean loss is exactly
zero and the rolling mean gain is nonzero, `get_rsi` yields exactly 100
— but through IEEE `inf` arithmetic rather than an explicit rule; when
the mean gain is zero as well, the code propagates NaN instead. -/
theorem C1_rsi_zero_loss (c : List ℚ) (i : ℕ) (hlen : i < c.length)
    (hwin : rsiPeriod - 1 ≤ i) (hl : meanLoss c i = 0) (hg : meanGain c i ≠ 0) :
    (get_rsi c).getD i none = some 100 := by
  have hp := rsiPeriod_eq
  rw [get_rsi_getD c i hlen]
  simp only [rsiAt]
  rw [if_neg (by omega)]
  simp [hl, hg]

unseal Rat.add Rat.mul Rat.inv Rat.sub in
/-- C1 witness: a strictly increasing 15-day series has zero mean loss
and positive mean gain at position 14, and its RSI there is 100. -/
theorem C1_witness :
    14 < up15.length ∧ rsiPeriod - 1 ≤ 14 ∧ meanLoss up15 14 = 0 ∧
      meanGain up15 14 ≠ 0 ∧ (get_rsi up15).getD 14 none = some 100 :=
  ⟨by decide, by decide, by decide, by decide,
    C1_rsi_zero_loss up15 14 (by decide) (by decide) (by decide) (by decide)⟩

/-! ## C5 -/

/-- C5: every value the `get_rsi` series actually defines lies in
`[0, 100]`. -/
theorem C5_rsi_bounded (c : List ℚ) (i : ℕ) (v : ℚ)
    (h : (get_rsi c).getD i none = some v) : 0 ≤ v ∧ v ≤ 100 := by
  by_cases hi : i < c.length
  · rw [get_rsi_getD c i hi] at h
    simp only [rsiAt] at h
    by_cases hcond : i < rsiPeriod - 1 ∨ c.length ≤ i
    · rw [if_pos hcond] at h
      exact absurd h (by simp)
    · rw [if_neg hcond] at h
      by_cases hlz : meanLoss c i = 0
      · rw [if_pos hlz] at h
        by_cases hgz : meanGain c i = 0
        · rw [if_pos hgz] at h
          exact absurd h (by simp)
        · rw [if_neg hgz] at h
          obtain rfl : (100 : ℚ) = v := Option.some.inj h
          norm_num
      · rw [if_neg hlz] at h
        have hl0 : 0 < meanLoss c i :=
          lt_of_le_of_ne (meanLoss_nonneg c i) (Ne.symm hlz)
        have hg0 : 0 ≤ meanGain c i := meanGain_nonneg c i
        have hratio : 0 ≤ meanGain c i / meanLoss c i := div_nonneg hg0 (le_of_lt hl0)
        have hpos : 0 < 100 / (1 + meanGain c i / meanLoss c i) :=
          div_pos (by norm_num) (by linarith)
        have hle : 100 / (1 + meanGain c i / meanLoss c i) ≤ 100 :=
          div_le_self (by norm_num) (by linarith)
        obtain rfl : 100 - 100 / (1 + meanGain c i / meanLoss c i) = v := Option.some.inj h
        constructor <;> linarith
  · rw [getD_of_length_le _ _ _ (by simpa [get_rsi] using Nat.le_of_not_lt hi)] at h
    exact absurd h (by simp)

unseal Rat.add Rat.mul Rat.inv Rat.sub in
/-- C5 witness: the alternating series `zig15` has RSI exactly 50 at
position 14, and 50 lies in `[0, 100]`. -/
theorem C5_witness :
    (get_rsi zig15).getD 14 none = some 50 ∧ 0 ≤ (50 : ℚ) ∧ (50 : ℚ) ≤ 100 :=
  ⟨by decide, C5_rsi_bounded zig15 14 50 (by decide)⟩

/-! ## C6 -/

/-- C6: for a non-empty history and a positive window, `calculate_ma`
produces no value (`NaN`, not zero and not an exception) when the
history is shorter than the window, and otherwise equals the arithmetic
mean of the last `days` closes. -/
theorem C6_calculate_ma (hist_df : List Bar) (days : ℕ)
    (hne : hist_df ≠ []) (hd : 1 ≤ days) :
    (hist_df.length < days → calculate_ma hist_df days = .ok none) ∧
    (days ≤ hist_df.length →
      calculate_ma hist_df days =
        .ok (some (((closesOf hist_df).reverse.take days).sum / (days : ℚ)))) := by
  have hlen : (closesOf hist_df).length = hist_df.length := List.length_map _ _
  constructor
  · intro hshort
    unfold calculate_ma
    rw [if_neg (by omega), if_pos (by omega),
      if_neg (by simp [closesOf, List.isEmpty_iff, hne])]
  · intro hlong
    unfold calculate_ma
    rw [if_neg (by omega), if_neg (by omega)]
    rw [List.take_reverse, List.sum_reverse]
    rfl

unseal Rat.add Rat.mul Rat.inv Rat.sub in
/-- C6 witness: on a three-bar history the two-bar moving average is
`(2 + 4) / 2 = 3`, and a seven-bar window yields no value. -/
theorem C6_witness :
    bars3 ≠ [] ∧ (1 : ℕ) ≤ 2 ∧ calculate_ma bars3 2 = .ok (some 3) ∧
      calculate_ma bars3 7 = .ok none :=
  ⟨by decide, by decide,
    ((C6_calculate_ma bars3 2 (by decide) (by decide)).2 (by decide)).trans (by decide),
    (C6_calculate_ma bars3 7 (by decide) (by decide)).1 (by decide)⟩

/-! ## C7 -/

/-- C7: for every non-empty history, `low_200` is the minimum of the
`low` column over the last `min 200 length` bars; when the history has
at most 200 bars (for instance 50), the window is the whole history, so
it is the minimum over all bars. -/
theorem C7_low_200 (hist_data : List Bar) (hne : hist_data ≠ []) :
    ∃ m, low_200 hist_data = some m ∧
      m ∈ (lastN 200 hist_data).map Bar.low ∧
      (∀ x ∈ (lastN 200 hist_data).map Bar.low, m ≤ x) ∧
      (lastN 200 hist_data).length = min 200 hist_data.length ∧
      (hist_data.length ≤ 200 → lastN 200 hist_data = hist_data) := by
  have hpos : 0 < hist_data.length := List.length_pos.mpr hne
  have hwin : lastN 200 hist_data ≠ [] := by
    unfold lastN
    rw [Ne, List.drop_eq_nil_iff]
    omega
  have hlows : (lastN 200 hist_data).map Bar.low ≠ [] := by
    simpa [List.map_eq_nil_iff] using hwin
  rcases hmin : ((lastN 200 hist_data).map Bar.low).min? with _ | m
  · exact absurd (List.min?_eq_none_iff.mp hmin) hlows
  · refine ⟨m, hmin, List.min?_mem (fun a b => min_choice a b) hmin, ?_, ?_, ?_⟩
    · intro x hx
      exact (List.le_min?_iff (fun a b c => le_min_iff) hmin).mp (le_refl m) x hx
    · unfold lastN
      rw [List.length_drop]
      omega
    · intro hle
      unfold lastN
      rw [show hist_data.length - 200 = 0 by omega]
      rfl

unseal Rat.add Rat.mul Rat.inv Rat.sub in
/-- C7 witness: on the fifty-bar history `bars50` the 200-day low is
the minimum over all fifty bars, namely 1. -/
theorem C7_witness :
    bars50 ≠ [] ∧
      (∃ m, low_200 bars50 = some m ∧
        m ∈ (lastN 200 bars50).map Bar.low ∧
        (∀ x ∈ (lastN 200 bars50).map Bar.low, m ≤ x) ∧
        (lastN 200 bars50).length = min 200 bars50.length ∧
        (bars50.length ≤ 200 → lastN 200 bars50 = bars50)) :=
  ⟨by decide, C7_low_200 bars50 (by decide)⟩

/-! ## C4 -/

/-- C4 counterexample: with a previously fetched series in the session,
a fetch in which both providers return nothing usable does not leave
the prior state untouched — it clears both session fields to `None`. -/
theorem C4_counterexample :
    fetch_handler prevState none none none ≠ prevState ∧
    (fetch_handler prevState none none none).hist_data = none ∧
    prevState.hist_data ≠ none := by
  decide

/-- C4 (amended): on success the fetched series and bundle replace the
session state; but when both providers fail, the handler clears the
session state to `None`/`None` instead of preserving the prior state. -/
theorem C4_fetch_state (prev : SessionState) (yahooHist : Option (List Bar))
    (yahooAux : Option AuxData) (alphaHist : Option (List Bar)) :
    (usableHist yahooHist = false → usableHist alphaHist = false →
      fetch_handler prev yahooHist yahooAux alphaHist =
        { hist_data := none, data := none }) ∧
    (usableHist yahooHist = true →
      fetch_handler prev yahooHist yahooAux alphaHist =
        { hist_data := yahooHist, data := yahooAux }) ∧
    (usableHist yahooHist = false → usableHist alphaHist = true →
      fetch_handler prev yahooHist yahooAux alphaHist =
        { hist_data := alphaHist, data := some { recommendations := some [] } }) := by
  refine ⟨fun hy ha => ?_, fun hy => ?_, fun hy ha => ?_⟩
  · simp [fetch_handler, hy, ha]
  · simp [fetch_handler, hy]
  · simp [fetch_handler, hy, ha]

/-- C4 witness: the double-failure transition at the concrete prior
state clears the session. -/
theorem C4_witness :
    usableHist (none : Option (List Bar)) = false ∧
      fetch_handler prevState none none none = { hist_data := none, data := none } :=
  ⟨rfl, (C4_fetch_state prevState none none none).1 rfl rfl⟩

/-! ## C8 -/

/-- C8: whenever the last 10 recommendation events produce a zero
matched total (absent table, empty table, or all labels unmatched),
`get_analyst_rating` returns the unrated sentinel `None` instead of
dividing by zero. -/
theorem C8_unrated (recommendations : Option (List String))
    (h : ∀ grades, recommendations = some grades →
      buyCount (lastN 10 grades) + holdCount (lastN 10 grades) +
        sellCount (lastN 10 grades) = 0) :
    get_analyst_rating recommendations = none := by
  match recommendations with
  | none => rfl
  | some grades =>
    simp only [get_analyst_rating]
    by_cases hempty : grades.isEmpty
    · rw [if_pos hempty]
    · rw [if_neg hempty, if_pos (h grades rfl)]

/-- C8 witness: two labels matching no bucket yield the sentinel. -/
theorem C8_witness :
    get_analyst_rating (some unratedLabels) = none ∧
      buyCount (lastN 10 unratedLabels) + holdCount (lastN 10 unratedLabels) +
        sellCount (lastN 10 unratedLabels) = 0 :=
  ⟨C8_unrated (some unratedLabels) (by intro g hg; cases hg; decide), by decide⟩

/-! ## C10 -/

unseal Rat.add Rat.mul Rat.inv Rat.sub in
/-- C10: a single event whose label contains both "Buy" and "Hold" is
counted once in each bucket, so the three counts sum to 2 although only
one event exists, and the reported percentages still add to 100 because
the denominator is the sum of the three counts. -/
theorem C10_multi_bucket :
    get_analyst_rating (some ["Hold to Buy"]) =
      some { overall := "Buy", buy := 1, hold := 1, sell := 0,
             buy_pct := 50, hold_pct := 50, sell_pct := 0 } ∧
    buyCount (lastN 10 ["Hold to Buy"]) + holdCount (lastN 10 ["Hold to Buy"]) +
        sellCount (lastN 10 ["Hold to Buy"]) = 2 ∧
    (["Hold to Buy"] : List String).length < 2 ∧
    (50 : ℚ) + 50 + 0 = 100 := by
  decide

/-! ## C2 -/

theorem le_pct_iff (q a t : ℕ) (ht : t ≠ 0) :
    ((q : ℚ) ≤ (a : ℚ) / ((t : ℕ) : ℚ) * 100) ↔ q * t ≤ 100 * a := by
  have ht0 : (0 : ℚ) < (t : ℚ) := by
    exact_mod_cast Nat.pos_of_ne_zero ht
  rw [div_mul_eq_mul_div, le_div_iff ht0]
  rw [show ((a : ℚ) * 100) = ((a * 100 : ℕ) : ℚ) by push_cast; ring,
    show ((q : ℚ) * (t : ℚ)) = ((q * t : ℕ) : ℚ) by push_cast; ring,
    Nat.cast_le]
  omega

/-- C2: whenever at least one of the 10 most recent events matches a
bucket, `get_analyst_rating` returns exactly the counts, the
percentages `count/total*100`, and the overall label given by the
spec's ordered decision table (first matching rule wins, buy-side
thresholds checked first). -/
theorem C2_decision_table (grades : List String) (b h s : ℕ)
    (hb : b = buyCount (lastN 10 grades)) (hh : h = holdCount (lastN 10 grades))
    (hs : s = sellCount (lastN 10 grades)) (htot : b + h + s ≠ 0) :
    get_analyst_rating (some grades) =
      some { overall := specOverall b h s, buy := b, hold := h, sell := s,
             buy_pct := (b : ℚ) / (((b + h + s : ℕ)) : ℚ) * 100,
             hold_pct := (h : ℚ) / (((b + h + s : ℕ)) : ℚ) * 100,
             sell_pct := (s : ℚ) / (((b + h + s : ℕ)) : ℚ) * 100 } := by
  subst hb hh hs
  cases grades with
  | nil => exact absurd (by decide) htot
  | cons g gs =>
    simp only [get_analyst_rating]
    rw [if_neg (by simp), if_neg htot]
    refine congrArg some ?_
    have h60 := le_pct_iff 60 (buyCount (lastN 10 (g :: gs)))
      (buyCount (lastN 10 (g :: gs)) + holdCount (lastN 10 (g :: gs)) +
        sellCount (lastN 10 (g :: gs))) htot
    have h40b := le_pct_iff 40 (buyCount (lastN 10 (g :: gs)))
      (buyCount (lastN 10 (g :: gs)) + holdCount (lastN 10 (g :: gs)) +
        sellCount (lastN 10 (g :: gs))) htot
    have h50h := le_pct_iff 50 (holdCount (lastN 10 (g :: gs)))
      (buyCount (lastN 10 (g :: gs)) + holdCount (lastN 10 (g :: gs)) +
        sellCount (lastN 10 (g :: gs))) htot
    have h40s := le_pct_iff 40 (sellCount (lastN 10 (g :: gs)))
      (buyCount (lastN 10 (g :: gs)) + holdCount (lastN 10 (g :: gs)) +
        sellCount (lastN 10 (g :: gs))) htot
    push_cast at h60 h40b h50h h40s
    unfold specOverall
    congr 1
    push_cast
    simp only [h60, h40b, h50h, h40s]

unseal Rat.add Rat.mul Rat.inv Rat.sub in
/-- C2 witness: the spec's worked example — six Buy, two Hold, one
Sell, one unmatched label — gives matched total 9 and overall
"Strong Buy". -/
theorem C2_witness :
    (6 + 2 + 1 : ℕ) ≠ 0 ∧
      get_analyst_rating (some exampleLabels) =
        some { overall := "Strong Buy", buy := 6, hold := 2, sell := 1,
               buy_pct := 200 / 3, hold_pct := 200 / 9, sell_pct := 100 / 9 } :=
  ⟨by decide,
    (C2_decision_table exampleLabels 6 2 1 (by decide) (by decide) (by decide)
      (by decide)).trans (by decide)⟩

/-! ## C3 -/

theorem filter_ge_range' :
    ∀ (m k t : ℕ), (List.range' k m).filter (fun i => decide (t ≤ i)) =
      (List.range' k m).drop (t - k)
  | 0, _, _ => by simp
  | m + 1, k, t => by
    rw [List.range'_succ, List.filter_cons]
    by_cases h : t ≤ k
    · rw [if_pos (by simpa using h)]
      have hrest : (List.range' (k + 1) m).filter (fun i => decide (t ≤ i)) =
          List.range' (k + 1) m := by
        apply List.filter_eq_self.mpr
        intro a ha
        rw [List.mem_range'_1] at ha
        simpa using Nat.le_trans h (by omega)
      rw [hrest, show t - k = 0 by omega, List.drop_zero]
    · rw [if_neg (by simpa using h)]
      rw [filter_ge_range' m (k + 1) t]
      rw [show t - k = (t - (k + 1)) + 1 by omega, List.drop_succ_cons]

instance : Std.Antisymm ((· : Int) ≤ ·) := ⟨@fun _ _ h h' => le_antisymm h h'⟩

theorem dailySeries_dates (d0 : Int) (g : ℕ → Bar) (n : ℕ) :
    (dailySeries d0 g n).map Bar.date = (List.range n).map fun (i : ℕ) => d0 + (i : ℤ) := by
  unfold dailySeries
  rw [List.map_map]
  rfl

theorem maxDate_dailySeries (d0 : Int) (g : ℕ → Bar) (n : ℕ) (hn : 1 ≤ n) :
    maxDate (dailySeries d0 g n) = d0 + ((n - 1 : ℕ) : ℤ) := by
  unfold maxDate
  rw [dailySeries_dates]
  have : ((List.range n).map fun (i : ℕ) => d0 + (i : ℤ)).max? = some (d0 + ((n - 1 : ℕ) : ℤ)) := by
    rw [List.max?_eq_some_iff (fun a => le_refl a) (fun a b => max_choice a b)
      (fun a b c => max_le_iff)]
    constructor
    · exact List.mem_map.mpr ⟨n - 1, List.mem_range.mpr (by omega), rfl⟩
    · intro b hb
      obtain ⟨i, hi, rfl⟩ := List.mem_map.mp hb
      rw [List.mem_range] at hi
      omega
  rw [this]
  rfl

theorem closesOf_drop (s : List Bar) (k : ℕ) :
    closesOf (s.drop k) = (closesOf s).drop k := by
  simp [closesOf]

theorem filterRange_dailySeries (d0 : Int) (g : ℕ → Bar) :
    filterRange 90 (dailySeries d0 g 400) = (dailySeries d0 g 400).drop 309 := by
  unfold filterRange
  rw [maxDate_dailySeries d0 g 400 (by omega)]
  show (List.map _ (List.range 400)).filter _ = _
  rw [List.filter_map]
  have hcongr : (List.range 400).filter
      ((fun b => decide (d0 + ((400 - 1 : ℕ) : ℤ) - 90 ≤ b.date)) ∘
        fun i => { g i with date := d0 + (i : ℤ) }) =
      (List.range 400).filter fun i => decide (309 ≤ i) := by
    apply List.filter_congr
    intro i hi
    show decide (d0 + ((400 - 1 : ℕ) : ℤ) - 90 ≤ d0 + (i : ℤ)) = decide (309 ≤ i)
    exact decide_eq_decide.mpr (by omega)
  rw [hcongr, List.range_eq_range', filter_ge_range' 400 0 309, ← List.range_eq_range']
  rw [Nat.sub_zero]
  unfold dailySeries
  rw [List.map_drop]

theorem rsi_refilter (d0 : Int) (g : ℕ → Bar) :
    (filtered_rsi 90 (dailySeries d0 g 400)).getD
        ((filterRange 90 (dailySeries d0 g 400)).length - 1) none =
      (get_rsi (closesOf (dailySeries d0 g 400))).getD 399 none := by
  have hlen : (dailySeries d0 g 400).length = 400 := by
    simp [dailySeries]
  have hclen : (closesOf (dailySeries d0 g 400)).length = 400 := by
    simp [closesOf, hlen]
  unfold filtered_rsi
  rw [filterRange_dailySeries d0 g, closesOf_drop]
  have hdlen : ((closesOf (dailySeries d0 g 400)).drop 309).length = 91 := by
    rw [List.length_drop, hclen]
  have hidx : ((dailySeries d0 g 400).drop 309).length - 1 = 90 := by
    rw [List.length_drop, hlen]
  rw [hidx, get_rsi_getD _ 90 (by rw [hdlen]; omega),
    rsiAt_drop _ 309 90 (by rw [rsiPeriod_eq]; omega) (by rw [hclen]; omega),
    get_rsi_getD _ 399 (by rw [hclen]; omega)]

/-- C3 counterexample: there is no 400-bar daily series on which the
RSI recomputed from the 90-day filtered slice differs, at the slice's
last index, from the full-series RSI at the same bar — the 14-bar
rolling window at the tail sees exactly the same deltas in both
computations, so the two values always agree there. -/
theorem C3_counterexample :
    ¬ ∃ (d0 : Int) (g : ℕ → Bar),
      (filtered_rsi 90 (dailySeries d0 g 400)).getD
          ((filterRange 90 (dailySeries d0 g 400)).length - 1) none ≠
        (get_rsi (closesOf (dailySeries d0 g 400))).getD 399 none := by
  rintro ⟨d0, g, hne⟩
  exact hne (rsi_refilter d0 g)

/-- C3 (amended): the filtered-view RSI is recomputed from the
date-filtered slice (`filtered_rsi` applies `get_rsi` to the slice, so
its initial window positions are undefined), but at the slice's last
index the recomputed value coincides exactly with the full-series RSI;
recomputation changes the output only at the early positions of the
filtered view. -/
theorem C3_refilter_last (d0 : Int) (g : ℕ → Bar) :
    (filtered_rsi 90 (dailySeries d0 g 400)).getD
        ((filterRange 90 (dailySeries d0 g 400)).length - 1) none =
      (get_rsi (closesOf (dailySeries d0 g 400))).getD 399 none ∧
    (filtered_rsi 90 (dailySeries d0 g 400)).getD 0 none = none := by
  refine ⟨rsi_refilter d0 g, ?_⟩
  have hlen : (dailySeries d0 g 400).length = 400 := by
    simp [dailySeries]
  have hclen : (closesOf (dailySeries d0 g 400)).length = 400 := by
    simp [closesOf, hlen]
  unfold filtered_rsi
  rw [filterRange_dailySeries d0 g, closesOf_drop]
  have hdlen : ((closesOf (dailySeries d0 g 400)).drop 309).length = 91 := by
    rw [List.length_drop, hclen]
  rw [get_rsi_getD _ 0 (by rw [hdlen]; omega)]
  unfold rsiAt
  rw [if_pos (Or.inl (by rw [rsiPeriod_eq]; omega))]

/-! ## C9 -/

theorem dateLe_trans : ∀ (a b c : Bar), dateLe a b → dateLe b c → dateLe a c := by
  intro a b c hab hbc
  simp only [dateLe, decide_eq_true_eq] at *
  omega

theorem dateLe_total : ∀ (a b : Bar), dateLe a b || dateLe b a := by
  intro a b
  simp only [dateLe]
  by_cases h : a.date ≤ b.date
  · simp [h]
  · simp [h, le_of_lt (lt_of_not_le h)]

theorem sorted_tail_props (bars : List Bar) (hnd : (bars.map Bar.date).Nodup) :
    (lastN 250 (bars.mergeSort dateLe)).length = min 250 bars.length ∧
    List.Pairwise (fun a b => a.date < b.date) (lastN 250 (bars.mergeSort dateLe)) ∧
    (∀ b ∈ lastN 250 (bars.mergeSort dateLe), b ∈ bars) ∧
    (∀ x ∈ bars, x ∉ lastN 250 (bars.mergeSort dateLe) →
      ∀ b ∈ lastN 250 (bars.mergeSort dateLe), x.date ≤ b.date) := by
  have hperm : (bars.mergeSort dateLe).Perm bars := List.mergeSort_perm bars dateLe
  have hslen : (bars.mergeSort dateLe).length = bars.length := by
    rw [List.length_mergeSort]
  have hlast : lastN 250 (bars.mergeSort dateLe) =
      (bars.mergeSort dateLe).drop ((bars.mergeSort dateLe).length - 250) := rfl
  have hsub : List.Sublist (lastN 250 (bars.mergeSort dateLe)) (bars.mergeSort dateLe) := by
    rw [hlast]
    exact List.drop_sublist _ _
  have hsle : (bars.mergeSort dateLe).Pairwise fun a b => a.date ≤ b.date := by
    have h := List.sorted_mergeSort dateLe_trans dateLe_total bars
    exact h.imp fun {a b} hab => by
      simpa [dateLe, decide_eq_true_eq] using hab
  have hnd_sorted : ((bars.mergeSort dateLe).map Bar.date).Nodup :=
    ((hperm.map Bar.date).nodup_iff).mpr hnd
  have hsne : (bars.mergeSort dateLe).Pairwise fun a b => a.date ≠ b.date :=
    List.pairwise_map.mp hnd_sorted
  have hslt : (bars.mergeSort dateLe).Pairwise fun a b => a.date < b.date :=
    (hsle.and hsne).imp fun {a b} h => lt_of_le_of_ne h.1 h.2
  refine ⟨?_, hslt.sublist hsub, ?_, ?_⟩
  · rw [hlast, List.length_drop, hslen]
    omega
  · intro b hb
    exact (hperm.mem_iff).mp (hsub.mem hb)
  · intro x hx hnotin b hb
    have hxs : x ∈ bars.mergeSort dateLe := (hperm.mem_iff).mpr hx
    rw [← List.take_append_drop ((bars.mergeSort dateLe).length - 250)
      (bars.mergeSort dateLe), List.mem_append] at hxs
    rcases hxs with hxs | hxs
    · have hsplit := hsle
      rw [← List.take_append_drop ((bars.mergeSort dateLe).length - 250)
        (bars.mergeSort dateLe)] at hsplit
      obtain ⟨-, -, hcross⟩ := List.pairwise_append.mp hsplit
      rw [hlast] at hb
      exact hcross _ hxs b hb
    · rw [← hlast] at hxs
      exact absurd hxs hnotin

/-- C9: `get_alpha_vantage` yields `None` for an absent, empty, or
unparseable payload; for a parseable payload (with the distinct dates a
JSON object guarantees) it yields a series that is strictly ascending
in date, contains at most 250 bars (exactly `min 250 n`), consists only
of converted input rows, and keeps the most recent rows: any input row
left out is no newer than every bar kept. -/
theorem C9_alpha_vantage (rows : List (Int × RawBar))
    (hnodup : (rows.map Prod.fst).Nodup) :
    get_alpha_vantage none = none ∧
    get_alpha_vantage (some []) = none ∧
    (rows.any (fun p => ! p.2.parses) = true → get_alpha_vantage (some rows) = none) ∧
    (rows ≠ [] → rows.any (fun p => ! p.2.parses) = false →
      ∃ l, get_alpha_vantage (some rows) = some l ∧
        l.length = min 250 rows.length ∧
        List.Pairwise (fun a b => a.date < b.date) l ∧
        (∀ b ∈ l, ∃ p ∈ rows, b = p.2.toBar p.1) ∧
        (∀ p ∈ rows, p.2.toBar p.1 ∉ l → ∀ b ∈ l, p.1 ≤ b.date)) := by
  refine ⟨rfl, rfl, fun hany => ?_, fun hne hok => ?_⟩
  · simp only [get_alpha_vantage]
    rw [if_neg (by simpa [List.isEmpty_iff] using fun h => by simp [h] at hany),
      if_pos hany]
  · have hnd : ((rows.map fun p : Int × RawBar => p.2.toBar p.1).map Bar.date).Nodup := by
      rw [List.map_map]
      exact hnodup
    obtain ⟨hlen, hlt, hmem, hold⟩ :=
      sorted_tail_props (rows.map fun p : Int × RawBar => p.2.toBar p.1) hnd
    refine ⟨lastN 250 ((rows.map fun p : Int × RawBar => p.2.toBar p.1).mergeSort dateLe),
      ?_, ?_, hlt, ?_, ?_⟩
    · simp only [get_alpha_vantage]
      rw [if_neg (by simpa [List.isEmpty_iff] using hne), if_neg (by simp [hok])]
    · rw [hlen, List.length_map]
    · intro b hb
      obtain ⟨p, hp, rfl⟩ := List.mem_map.mp (hmem b hb)
      exact ⟨p, hp, rfl⟩
    · intro p hp hnotin b hb
      exact hold (p.2.toBar p.1) (List.mem_map.mpr ⟨p, hp, rfl⟩) hnotin b hb

/-- C9 witness: three parseable rows with out-of-order dates come back
sorted strictly ascending and complete. -/
theorem C9_witness :
    (rows3.map Prod.fst).Nodup ∧
      (rows3 ≠ [] → rows3.any (fun p => ! p.2.parses) = false →
        ∃ l, get_alpha_vantage (some rows3) = some l ∧
          l.length = min 250 rows3.length ∧
          List.Pairwise (fun a b => a.date < b.date) l ∧
          (∀ b ∈ l, ∃ p ∈ rows3, b = p.2.toBar p.1) ∧
          (∀ p ∈ rows3, p.2.toBar p.1 ∉ l → ∀ b ∈ l, p.1 ≤ b.date)) :=
  ⟨by decide, (C9_alpha_vantage rows3 (by decide)).2.2.2⟩
